import Mathlib

/-!
Shallow embedding of the `finalproject` e-commerce backend (Go) for checking
its natural-language specification.  Pure data shapes become structures,
each SQL statement becomes a function on an explicit database state, and a
data-access method becomes a state-passing function returning
`DB × Except DataErr α`.  Statements are auto-committed exactly as in the
source (no transaction wrapping), so an error result still carries the
partially mutated state.
-/

deriving instance DecidableEq for Except

namespace FinalProject

/-- Raw error signals coming from the store driver layer
(`pgx`, `database/sql`, postgres server errors). -/
inductive StoreErr where
  /-- `pgx.ErrNoRows`: `QueryRow.Scan` found no matching row. -/
  | pgxNoRows
  /-- `database/sql` `ErrNoRows`. -/
  | sqlNoRows
  /-- Postgres error 23514: new row violates check constraint
  `quantity_check` on `products.quantity`. -/
  | quantityCheckViolation
  /-- Any other driver or server error. -/
  | other (code : Nat)
deriving DecidableEq, Repr

/-- Errors surfaced by the data layer (`internal/data`): the three sentinel
errors declared in the models file, plus a raw store error passed through
unchanged by the `default:` branches of the error switches. -/
inductive DataErr where
  /-- `ErrRecordNotFound`. -/
  | recordNotFound
  /-- `ErrEditConflict`. -/
  | editConflict
  /-- `ErrOutOfStock`. -/
  | outOfStock
  /-- A raw store error returned without translation. -/
  | store (e : StoreErr)
deriving DecidableEq, Repr

/-- A row of the `products` table. -/
structure ProductRow where
  id : Int
  createdAt : Int
  title : String
  owner : Int
  description : String
  images : List String
  colors : List String
  quantity : Int
  price : ℚ
  version : Int
deriving DecidableEq, Repr

/-- A row of the `categories` table. -/
structure CategoryRow where
  id : Int
  title : String
  image : String
deriving DecidableEq, Repr

/-- A row of the `orders` table. -/
structure OrderRow where
  id : Int
  userId : Int
  orderedAt : Int
  status : Int
  totalPrice : ℚ
  address : String
  version : Int
deriving DecidableEq, Repr

/-- A row of the `order_items` table. -/
structure OrderItemRow where
  id : Int
  orderId : Int
  productId : Int
  quantity : Int
deriving DecidableEq, Repr

/-- A row of the `ratings` table. -/
structure RatingRow where
  productId : Int
  userId : Int
  rating : Int
  comment : String
deriving DecidableEq, Repr

/-- The relational store: one list of rows per table, plus the serial
counters that generate primary keys, and a clock supplying `now()`. -/
structure DB where
  products : List ProductRow
  categories : List CategoryRow
  productCategories : List (Int × Int)
  orders : List OrderRow
  orderItems : List OrderItemRow
  ratings : List RatingRow
  nextOrderId : Int
  nextOrderItemId : Int
  clock : Int
deriving DecidableEq, Repr

/-- The Go `data.OrderItem` struct. -/
structure OrderItem where
  productId : Int
  quantity : Int
deriving DecidableEq, Repr

/-- The Go `data.Order` struct.  A Go nil slice and an empty slice of
items are both the empty list here. -/
structure Order where
  id : Int
  orderedAt : Int
  status : Int
  address : String
  userId : Int
  totalPrice : ℚ
  orderItems : List OrderItem
  version : Int
deriving DecidableEq, Repr

/-- The Go `data.RatingSchema` struct. -/
structure RatingSchema where
  userId : Int
  rating : Int
  comment : String
deriving DecidableEq, Repr

/-- Modelled from the spec: the `internal/validator` package is not under
`src/` (only its callers are).  Per §6 it accumulates named-field
violations, and `valid()` asks whether none were recorded.  Like the Go
map, a second message for an already present field key is dropped. -/
structure Validator where
  errors : List (String × String)
deriving DecidableEq, Repr

/-- Modelled from the spec: a fresh validator with no violations. -/
def Validator.new : Validator := ⟨[]⟩

/-- Modelled from the spec: record a violation for a field key, keeping
the first message per key. -/
def Validator.addError (v : Validator) (key msg : String) : Validator :=
  if v.errors.any (fun e => e.1 == key) then v else ⟨v.errors ++ [(key, msg)]⟩

/-- Modelled from the spec: check a rule, recording a violation when it
does not hold. -/
def Validator.check (v : Validator) (ok : Bool) (key msg : String) : Validator :=
  if ok then v else v.addError key msg

/-- Modelled from the spec: the validator holds no violations. -/
def Validator.valid (v : Validator) : Bool := v.errors.isEmpty

/-- `ValidateOrder` from the orders model file: address non-empty,
user id non-negative, item list present and non-empty.  No rule mentions
the item quantities. -/
def ValidateOrder (v : Validator) (o : Order) : Validator :=
  ((((v.check (o.address != "") "address" "must be provided").check
      (decide (0 ≤ o.userId)) "user" "must be provided").check
      (!o.orderItems.isEmpty) "order_items" "must be provided").check
      (decide (1 ≤ o.orderItems.length)) "order_items" "must contain at least 1 order item")

/-- `ValidateReview` from the products model file: rating and user id
non-negative. -/
def ValidateReview (v : Validator) (review : RatingSchema) : Validator :=
  ((v.check (decide (0 ≤ review.rating)) "rating" "must not be less than 0").check
      (decide (0 ≤ review.userId)) "user_id" "must be provided")

/-- `SELECT ... FROM products WHERE product_id = $1` through
`QueryRow.Scan`: the first matching row, or `pgx.ErrNoRows`. -/
def selectProduct (ps : List ProductRow) (pid : Int) : Except StoreErr ProductRow :=
  match ps.find? (fun p => p.id == pid) with
  | none => .error .pgxNoRows
  | some p => .ok p

/-- The row transformation of
`UPDATE products SET quantity = quantity - $1, version = version + 1
WHERE product_id = $2 AND version = $3` on a single row. -/
def decrementRow (q pid ver : Int) (p : ProductRow) : ProductRow :=
  if p.id == pid && p.version == ver then
    { p with quantity := p.quantity - q, version := p.version + 1 }
  else p

/-- The guarded decrement statement applied to the whole table. -/
def decrementMatching (ps : List ProductRow) (q pid ver : Int) : List ProductRow :=
  ps.map (decrementRow q pid ver)

/-- The guarded decrement statement through `QueryRow.Scan`: zero matching
rows yield `pgx.ErrNoRows`; a matched row whose decremented quantity would
violate the non-negativity constraint `quantity_check` yields the
constraint-violation error (the constraint is modelled from spec §4.1
step 2, its migration being absent from `src/`); otherwise every matched
row is updated and the scanned new version is returned. -/
def guardedDecrement (ps : List ProductRow) (q pid ver : Int) :
    Except StoreErr (List ProductRow × Int) :=
  if (ps.filter (fun p => p.id == pid && p.version == ver)).isEmpty then
    .error .pgxNoRows
  else if (ps.filter (fun p => p.id == pid && p.version == ver)).any
      (fun p => p.quantity - q < 0) then
    .error .quantityCheckViolation
  else .ok (decrementMatching ps q pid ver, ver + 1)

/-- The error switch after the product `SELECT` in `OrderModel.Insert`:
both no-rows signals become `ErrRecordNotFound`, anything else passes
through. -/
def mapSelectErr : StoreErr → DataErr
  | .sqlNoRows => .recordNotFound
  | .pgxNoRows => .recordNotFound
  | e => .store e

/-- The error switch after the guarded decrement in `OrderModel.Insert`:
the `quantity_check` violation message becomes `ErrOutOfStock`,
`pgx.ErrNoRows` becomes `ErrRecordNotFound`, anything else passes
through. -/
def mapDecrementErr : StoreErr → DataErr
  | .quantityCheckViolation => .outOfStock
  | .pgxNoRows => .recordNotFound
  | e => .store e

/-- One guarded decrement as issued inside the `OrderModel.Insert` loop,
against a version the caller read earlier: the statement plus its error
switch.  On failure the auto-committed state is unchanged. -/
def attemptDecrement (ps : List ProductRow) (q pid ver : Int) :
    (List ProductRow) × Except DataErr Int :=
  match guardedDecrement ps q pid ver with
  | .error e => (ps, .error (mapDecrementErr e))
  | .ok (ps2, newVer) => (ps2, .ok newVer)

/-- The reservation loop of `OrderModel.Insert`: for each item, reject a
non-positive product id, `SELECT` the product, issue the guarded
decrement with the version just read, and accumulate
`price + quantity` into the running total.  An error stops the loop but
keeps all decrements already committed. -/
def reserveLoop (ps : List ProductRow) (acc : ℚ) :
    List OrderItem → (List ProductRow) × Except DataErr ℚ
  | [] => (ps, .ok acc)
  | item :: rest =>
    if item.productId < 1 then (ps, .error .recordNotFound)
    else
      match selectProduct ps item.productId with
      | .error e => (ps, .error (mapSelectErr e))
      | .ok product =>
        match attemptDecrement ps item.quantity product.id product.version with
        | (ps2, .error e) => (ps2, .error e)
        | (ps2, .ok _) => reserveLoop ps2 (acc + product.price + (item.quantity : ℚ)) rest

/-- `INSERT INTO orders (user_id, total_price, address) RETURNING
id, ordered_at, user_id`. -/
def insertOrderHeader (db : DB) (userId : Int) (totalPrice : ℚ) (address : String) :
    DB × OrderRow :=
  let row : OrderRow :=
    { id := db.nextOrderId, userId := userId, orderedAt := db.clock,
      status := 0, totalPrice := totalPrice, address := address, version := 1 }
  ({ db with orders := db.orders ++ [row], nextOrderId := db.nextOrderId + 1 }, row)

/-- The order-items insertion loop of `OrderModel.Insert`:
`INSERT INTO order_items (order_id, product_id, quantity)` per item. -/
def insertOrderItems (db : DB) (orderId : Int) : List OrderItem → DB
  | [] => db
  | item :: rest =>
    let row : OrderItemRow :=
      { id := db.nextOrderItemId, orderId := orderId,
        productId := item.productId, quantity := item.quantity }
    insertOrderItems
      { db with orderItems := db.orderItems ++ [row],
                nextOrderItemId := db.nextOrderItemId + 1 }
      orderId rest

namespace OrderModel

/-- `OrderModel.Insert`: reserve stock item by item, then insert the
order header and its items.  Each statement auto-commits; there is no
transaction, so an error result keeps every decrement already applied. -/
def Insert (userId : Int) (order : Order) (db : DB) : DB × Except DataErr Order :=
  match reserveLoop db.products 0 order.orderItems with
  | (ps, .error e) => ({ db with products := ps }, .error e)
  | (ps, .ok totalPrice) =>
    let db1 := { db with products := ps }
    let (db2, row) := insertOrderHeader db1 userId totalPrice order.address
    let db3 := insertOrderItems db2 row.id order.orderItems
    (db3, .ok { order with id := row.id, orderedAt := row.orderedAt,
                           userId := row.userId, totalPrice := totalPrice })

/-- `OrderModel.Get`: non-positive ids are rejected with
`ErrRecordNotFound`; otherwise the header row is selected (items are not
loaded by this method). -/
def Get (db : DB) (id : Int) : Except DataErr Order :=
  if id < 1 then .error .recordNotFound
  else
    match db.orders.find? (fun o => o.id == id) with
    | none => .error .recordNotFound
    | some row =>
      .ok { id := row.id, orderedAt := row.orderedAt, status := row.status,
            address := row.address, userId := row.userId,
            totalPrice := row.totalPrice, orderItems := [], version := row.version }

/-- The row transformation of `UPDATE orders SET status = $1 WHERE
id = $2 AND version = $3`. -/
def orderUpdateRow (order : Order) (o : OrderRow) : OrderRow :=
  if o.id == order.id && o.version == order.version then
    { o with status := order.status }
  else o

/-- `OrderModel.Update`: `UPDATE orders SET status = $1 WHERE id = $2 AND
version = $3 RETURNING version`.  Zero affected rows surface as
`ErrEditConflict`.  The statement sets only `status`; the scanned version
is the stored one, which it leaves unchanged. -/
def Update (order : Order) (db : DB) : DB × Except DataErr Order :=
  let matched := db.orders.filter (fun o => o.id == order.id && o.version == order.version)
  if matched.isEmpty then (db, .error .editConflict)
  else
    ({ db with orders := db.orders.map (orderUpdateRow order) },
      .ok { order with version := order.version })

/-- `OrderModel.Delete`: a non-positive id returns the raw
`pgx.ErrNoRows` value itself, not `ErrRecordNotFound`; deleting a missing
row surfaces as `ErrRecordNotFound`. -/
def Delete (db : DB) (id : Int) : DB × Except DataErr Unit :=
  if id < 1 then (db, .error (.store .pgxNoRows))
  else if db.orders.any (fun o => o.id == id) then
    ({ db with orders := db.orders.filter (fun o => !(o.id == id)) }, .ok ())
  else (db, .error .recordNotFound)

/-- `OrderModel.IsUserOrderedProduct`: a non-positive product id is
rejected; otherwise the result of the `SELECT exists(...)` statement as
written in the source, whose `WHERE` clause compares against the literal
constants `orders.user_id = 3` and `order_items.product_id = 9` and
references neither bound parameter. -/
def IsUserOrderedProduct (db : DB) (userId productId : Int) : Except DataErr Bool :=
  if productId < 1 then .error .recordNotFound
  else
    .ok (db.orders.any fun o =>
      o.userId == 3 && db.orderItems.any fun it => it.orderId == o.id && it.productId == 9)

end OrderModel

/-- The Go `data.Product` struct. -/
structure Product where
  id : Int
  createdAt : Int
  title : String
  owner : Int
  description : String
  quantity : Int
  colors : List String
  images : List String
  price : ℚ
  version : Int
  categories : List CategoryRow
  ratings : List RatingSchema
deriving DecidableEq, Repr

namespace ProductModel

/-- `ProductModel.GetReviews`: non-positive ids rejected with
`ErrRecordNotFound`; otherwise the ratings rows for the product. -/
def GetReviews (db : DB) (productId : Int) : Except DataErr (List RatingSchema) :=
  if productId < 1 then .error .recordNotFound
  else
    .ok ((db.ratings.filter (fun rr => rr.productId == productId)).map
      fun rr => { userId := rr.userId, rating := rr.rating, comment := rr.comment })

/-- `ProductModel.Get`: non-positive ids rejected with
`ErrRecordNotFound`; otherwise select the row (no-rows signals become
`ErrRecordNotFound`), join its categories and attach its reviews. -/
def Get (db : DB) (id : Int) : Except DataErr Product :=
  if id < 1 then .error .recordNotFound
  else
    match selectProduct db.products id with
    | .error e => .error (mapSelectErr e)
    | .ok p =>
      let categories := db.categories.filter fun c =>
        db.productCategories.any fun pc => pc.1 == p.id && pc.2 == c.id
      match GetReviews db p.id with
      | .error e => .error e
      | .ok reviews =>
        .ok { id := p.id, createdAt := p.createdAt, title := p.title,
              owner := p.owner, description := p.description,
              quantity := p.quantity, colors := p.colors, images := p.images,
              price := p.price, version := p.version,
              categories := categories, ratings := reviews }

/-- The row transformation of `UPDATE products SET title = $1, owner = $2,
description = $3, images = $4, colors = $5, quantity = $6, price = $7,
version = version + 1 WHERE product_id = $8 AND version = $9`. -/
def productUpdateRow (product : Product) (p : ProductRow) : ProductRow :=
  if p.id == product.id && p.version == product.version then
    { p with
      title := product.title
      owner := product.owner
      description := product.description
      images := product.images
      colors := product.colors
      quantity := product.quantity
      price := product.price
      version := p.version + 1 }
  else p

/-- `ProductModel.Update`: every field is written, `version = version + 1`,
guarded by `WHERE product_id = $8 AND version = $9 RETURNING version`;
zero affected rows surface as `ErrEditConflict`, and on success the
struct carries the scanned incremented version. -/
def Update (product : Product) (db : DB) : DB × Except DataErr Product :=
  let matched := db.products.filter
    (fun p => p.id == product.id && p.version == product.version)
  if matched.isEmpty then (db, .error .editConflict)
  else
    ({ db with products := db.products.map (productUpdateRow product) },
      .ok { product with version := product.version + 1 })

/-- `ProductModel.Delete`: a non-positive id returns the raw
`pgx.ErrNoRows` value itself, not `ErrRecordNotFound`; deleting a missing
row surfaces as `ErrRecordNotFound`. -/
def Delete (db : DB) (id : Int) : DB × Except DataErr Unit :=
  if id < 1 then (db, .error (.store .pgxNoRows))
  else if db.products.any (fun p => p.id == id) then
    ({ db with products := db.products.filter (fun p => !(p.id == id)) }, .ok ())
  else (db, .error .recordNotFound)

/-- `ProductModel.InsertReview`: appends a ratings row. -/
def InsertReview (db : DB) (rating : RatingSchema) (productId : Int) : DB :=
  { db with ratings := db.ratings ++
      [{ productId := productId, userId := rating.userId,
         rating := rating.rating, comment := rating.comment }] }

end ProductModel

namespace CategoryModel

/-- `CategoryModel.Update`: `UPDATE categories SET title = $1, image = $2
WHERE id = $3 RETURNING id` — conditioned on the primary key alone, with
no version column anywhere; zero affected rows surface as
`ErrEditConflict`. -/
def Update (category : CategoryRow) (db : DB) : DB × Except DataErr CategoryRow :=
  let matched := db.categories.filter (fun c => c.id == category.id)
  if matched.isEmpty then (db, .error .editConflict)
  else
    let newCategories := db.categories.map fun c =>
      if c.id == category.id then
        { c with title := category.title, image := category.image }
      else c
    ({ db with categories := newCategories }, .ok category)

end CategoryModel

/-- How the delete and show handlers classify the model result:
`ErrRecordNotFound` becomes a 404 not-found response, success a 200, and
every other error the unclassified 500 server error. -/
inductive HandlerOutcome where
  | notFound
  | serverError
  | success
deriving DecidableEq, Repr

/-- `deleteProductHandler` after id parsing: only `ErrRecordNotFound` is
classified as not-found, every other error as a server error. -/
def deleteProductHandler (db : DB) (id : Int) : DB × HandlerOutcome :=
  match ProductModel.Delete db id with
  | (db2, .error .recordNotFound) => (db2, .notFound)
  | (db2, .error _) => (db2, .serverError)
  | (db2, .ok _) => (db2, .success)

/-- `deleteOrderHandler` after id parsing: same classification as the
product delete handler. -/
def deleteOrderHandler (db : DB) (id : Int) : DB × HandlerOutcome :=
  match OrderModel.Delete db id with
  | (db2, .error .recordNotFound) => (db2, .notFound)
  | (db2, .error _) => (db2, .serverError)
  | (db2, .ok _) => (db2, .success)

/-- `showProductHandler` after id parsing: `ErrRecordNotFound` becomes
not-found, other errors a server error. -/
def showProductHandler (db : DB) (id : Int) : HandlerOutcome :=
  match ProductModel.Get db id with
  | .error .recordNotFound => .notFound
  | .error _ => .serverError
  | .ok _ => .success

/-- Outcomes of `createReviewHandler`. -/
inductive ReviewOutcome where
  | validationFailed
  | serverError
  | notPermitted
  | created
deriving DecidableEq, Repr

/-- `createReviewHandler`: validate the review, then gate on
`OrderModel.IsUserOrderedProduct`; a gate error is a server error, a
false gate the distinct not-permitted rejection, and a true gate inserts
the review. -/
def createReviewHandler (db : DB) (userId productId rating : Int) (comment : String) :
    DB × ReviewOutcome :=
  let review : RatingSchema := { userId := userId, rating := rating, comment := comment }
  let v := ValidateReview Validator.new review
  if !v.valid then (db, .validationFailed)
  else
    match OrderModel.IsUserOrderedProduct db userId productId with
    | .error _ => (db, .serverError)
    | .ok false => (db, .notPermitted)
    | .ok true => (ProductModel.InsertReview db review productId, .created)

/-- The review-gate predicate in the words of the spec: some order placed
by the user contains an order item for the product.  Used to compare the
source gate against its specified behaviour. -/
def userHasOrderedSpec (db : DB) (userId productId : Int) : Bool :=
  db.orders.any fun o =>
    o.userId == userId && db.orderItems.any fun it =>
      it.orderId == o.id && it.productId == productId

/-- Modelled from the spec: the `Filters` struct of the data package is
not under `src/` (only its callers are); per §4.3 it carries the page
number, page size, sort key and the allow-list of sortable columns. -/
structure Filters where
  page : Int
  pageSize : Int
  sort : String
  sortSafelist : List String
deriving DecidableEq, Repr

/-- Modelled from the spec: `ValidateFilters` is not under `src/`.  Per
§4.3 an out-of-allow-list sort key must fail validation before any query
executes, so the sort key is checked for membership in the allow-list. -/
def ValidateFilters (v : Validator) (f : Filters) : Validator :=
  v.check (f.sortSafelist.contains f.sort) "sort" "invalid sort value"

/-- The sort allow-list configured in `listProductsHandler`. -/
def productSortSafelist : List String :=
  ["product_id", "title", "price", "quantity", "total_rating",
   "-product_id", "-title", "-price", "-quantity", "-total_rating"]

/-- Outcomes of `listProductsHandler`: either validation fails before any
query, or `GetAll` is invoked with the validated filters. -/
inductive ListOutcome where
  | validationFailed
  | queried (title : String) (categories : List String) (f : Filters)
deriving DecidableEq, Repr

/-- `listProductsHandler` after query-string parsing: build the filters
with the configured allow-list, validate, and only on success run the
listing query. -/
def listProductsHandler (title : String) (categories : List String)
    (page pageSize : Int) (sort : String) : ListOutcome :=
  let f : Filters := { page := page, pageSize := pageSize, sort := sort,
                       sortSafelist := productSortSafelist }
  let v := ValidateFilters Validator.new f
  if !v.valid then .validationFailed
  else .queried title categories f

/-- Modelled from the spec: pagination metadata per §4.3 — current page,
page size, total records, and total pages = ceil(total/page_size); when
the total record count is zero the reported metadata is all zeros and no
division is performed. -/
structure Metadata where
  currentPage : Nat
  pageSize : Nat
  totalRecords : Nat
  totalPages : Nat
deriving DecidableEq, Repr

/-- Modelled from the spec: `calculateMetadata` is not under `src/` (only
its callers in the listing methods are).  Per §4.3, a zero total yields
the all-zero metadata with no division; otherwise total pages is the
ceiling of total records over page size. -/
def calculateMetadata (totalRecords page pageSize : Nat) : Metadata :=
  if totalRecords = 0 then
    { currentPage := 0, pageSize := 0, totalRecords := 0, totalPages := 0 }
  else
    { currentPage := page, pageSize := pageSize, totalRecords := totalRecords,
      totalPages := (totalRecords + pageSize - 1) / pageSize }

/-- A sequence of order placements: each call runs against the state the
previous call left behind, and its result is recorded. -/
def runPlacements (db : DB) : List (Int × Order) → DB × List (Except DataErr Order)
  | [] => (db, [])
  | (uid, o) :: rest =>
    let (db1, res) := OrderModel.Insert uid o db
    let (db2, results) := runPlacements db1 rest
    (db2, res :: results)

/-- Whether an `Except` result is a success. -/
def isOkB : Except DataErr Order → Bool
  | .ok _ => true
  | .error _ => false

/-- The stored quantity of a product, read off the first row with the
given id (zero when the product is absent). -/
def quantityOf (ps : List ProductRow) (pid : Int) : Int :=
  ((ps.find? (fun p => p.id == pid)).map (fun p => p.quantity)).getD 0

/-- The total quantity an order requests for one product. -/
def reservedSum (items : List OrderItem) (pid : Int) : Int :=
  ((items.filter (fun it => it.productId == pid)).map (fun it => it.quantity)).sum

/-- The total quantity reserved for one product by the placements of a
sequence that returned success. -/
def successReserved (pid : Int) :
    List (Int × Order) → List (Except DataErr Order) → Int
  | [], _ => 0
  | _, [] => 0
  | c :: cs, r :: rs =>
    (if isOkB r then reservedSum c.2.orderItems pid else 0) + successReserved pid cs rs

/-- The stored price of a product, read off the first row with the given
id (zero when the product is absent). -/
def priceOf (ps : List ProductRow) (pid : Int) : ℚ :=
  ((ps.find? (fun p => p.id == pid)).map (fun p => p.price)).getD 0

/-- The stored version of a product, read off the first row with the
given id (zero when the product is absent). -/
def versionOf (ps : List ProductRow) (pid : Int) : Int :=
  ((ps.find? (fun p => p.id == pid)).map (fun p => p.version)).getD 0

/-- The stored version of an order, read off the first row with the given
id (zero when the order is absent). -/
def orderVersionOf (os : List OrderRow) (oid : Int) : Int :=
  ((os.find? (fun o => o.id == oid)).map (fun o => o.version)).getD 0

/-- The stored status of an order, read off the first row with the given
id (zero when the order is absent). -/
def orderStatusOf (os : List OrderRow) (oid : Int) : Int :=
  ((os.find? (fun o => o.id == oid)).map (fun o => o.status)).getD 0

/-- The total an order should be charged according to the accumulation
performed by `OrderModel.Insert`: for each item, the unit price of the
product as stored when the placement began plus the bare item quantity. -/
def specTotal (ps : List ProductRow) (items : List OrderItem) : ℚ :=
  (items.map (fun it => priceOf ps it.productId + (it.quantity : ℚ))).sum

section Fixtures

/-- A product with five units in stock at price 10, version 1. -/
def sampleProduct1 : ProductRow :=
  { id := 1, createdAt := 0, title := "p1", owner := 1, description := "d",
    images := [], colors := [], quantity := 5, price := 10, version := 1 }

/-- A store holding only `sampleProduct1`. -/
def sampleDB : DB :=
  { products := [sampleProduct1], categories := [], productCategories := [],
    orders := [], orderItems := [], ratings := [],
    nextOrderId := 1, nextOrderItemId := 1, clock := 0 }

/-- A placement whose first item carries a negative quantity and whose
second item references the missing product 2. -/
def orderA : Order :=
  { id := 0, orderedAt := 0, status := 0, address := "addrA", userId := 4,
    totalPrice := 0, orderItems := [⟨1, -10⟩, ⟨2, 1⟩], version := 0 }

/-- A placement requesting twelve units of product 1. -/
def orderB : Order :=
  { id := 0, orderedAt := 0, status := 0, address := "addrB", userId := 4,
    totalPrice := 0, orderItems := [⟨1, 12⟩], version := 0 }

/-- A placement requesting three units of product 1 and one unit of the
missing product 2. -/
def orderC2 : Order :=
  { id := 0, orderedAt := 0, status := 0, address := "addrC", userId := 7,
    totalPrice := 0, orderItems := [⟨1, 3⟩, ⟨2, 1⟩], version := 0 }

/-- A well-formed placement for three units of product 1. -/
def orderOk : Order :=
  { id := 0, orderedAt := 0, status := 0, address := "addrD", userId := 7,
    totalPrice := 0, orderItems := [⟨1, 3⟩], version := 0 }

/-- A placement whose only item has quantity -2. -/
def negOrder : Order :=
  { id := 0, orderedAt := 0, status := 0, address := "a", userId := 1,
    totalPrice := 0, orderItems := [⟨1, -2⟩], version := 0 }

/-- Product 1 after a concurrent writer bumped its version to 2. -/
def staleProduct : ProductRow := { sampleProduct1 with version := 2 }

/-- An order row at version 3, status 0. -/
def orderRow1 : OrderRow :=
  { id := 1, userId := 4, orderedAt := 0, status := 0, totalPrice := 5,
    address := "x", version := 3 }

/-- A store holding only `orderRow1`. -/
def ordersDB : DB := { sampleDB with products := [], orders := [orderRow1] }

/-- The update submitted against `orderRow1` with the matching version 3
and a new status. -/
def updOrder : Order :=
  { id := 1, orderedAt := 0, status := 2, address := "x", userId := 4,
    totalPrice := 5, orderItems := [], version := 3 }

/-- A store where user 3 placed order 1 containing product 9, and nobody
else ordered anything. -/
def gateDB : DB :=
  { sampleDB with
      orders := [{ id := 1, userId := 3, orderedAt := 0, status := 0,
                   totalPrice := 5, address := "x", version := 1 }],
      orderItems := [{ id := 1, orderId := 1, productId := 9, quantity := 1 }] }

/-- An update struct for product 1 presenting the matching version 1. -/
def prod1 : Product :=
  { id := 1, createdAt := 0, title := "p1-new", owner := 1, description := "d2",
    quantity := 4, colors := [], images := [], price := 11, version := 1,
    categories := [], ratings := [] }

/-- The product row stored after `prod1` is applied to `sampleDB`. -/
def prod1row : ProductRow :=
  { sampleProduct1 with
    title := "p1-new"
    description := "d2"
    quantity := 4
    price := 11
    version := 2 }

/-- The store after `prod1` is applied to `sampleDB`. -/
def prod1updDB : DB := { sampleDB with products := [prod1row] }

/-- The store after `updOrder` is applied to `ordersDB`. -/
def ordersDB2 : DB := { ordersDB with orders := [{ orderRow1 with status := 2 }] }

/-- A store holding one category. -/
def catDB : DB := { sampleDB with categories := [{ id := 1, title := "t", image := "i" }] }

/-- An update struct for category 1. -/
def cat1upd : CategoryRow := { id := 1, title := "t2", image := "i2" }

end Fixtures

/-- Auxiliary: `find?` commutes with mapping a function that leaves the
search predicate unchanged. -/
theorem find?_map_comm {α : Type} (g : α → α) (pred : α → Bool)
    (hp : ∀ x, pred (g x) = pred x) (l : List α) :
    (l.map g).find? pred = (l.find? pred).map g := by
  induction l with
  | nil => rfl
  | cons a t ih =>
    by_cases hpa : pred a = true
    · rw [List.map_cons, List.find?_cons_of_pos _ ((hp a).trans hpa),
          List.find?_cons_of_pos _ hpa]
      rfl
    · have hna : ¬ pred (g a) = true := by rw [hp]; exact hpa
      rw [List.map_cons, List.find?_cons_of_neg _ hna,
          List.find?_cons_of_neg _ hpa, ih]

/-- Auxiliary: in a list whose keys are distinct, `find?` on a key of a
member returns that member. -/
theorem find?_eq_of_mem_nodup {α : Type} (key : α → Int) (l : List α)
    (hnd : (l.map key).Nodup) (r : α) (hr : r ∈ l) (pid : Int) (hid : key r = pid) :
    l.find? (fun x => key x == pid) = some r := by
  induction l with
  | nil => cases hr
  | cons a t ih =>
    rw [List.map_cons, List.nodup_cons] at hnd
    obtain ⟨hnotin, hnd⟩ := hnd
    rcases List.mem_cons.mp hr with rfl | hrt
    · exact List.find?_cons_of_pos _ (by simp [hid])
    · have hka : ¬ (key a = pid) := by
        intro he
        exact hnotin (by rw [he, ← hid]; exact List.mem_map_of_mem key hrt)
      rw [List.find?_cons_of_neg _ (by simp [hka]), ih hnd hrt]

/-- Auxiliary: the product update statement never changes the id of a row. -/
theorem productUpdateRow_id (p : Product) (r : ProductRow) :
    (ProductModel.productUpdateRow p r).id = r.id := by
  unfold ProductModel.productUpdateRow
  split <;> rfl

/-- Auxiliary: the order status update never changes the id of a row. -/
theorem orderUpdateRow_id (o : Order) (r : OrderRow) :
    (OrderModel.orderUpdateRow o r).id = r.id := by
  unfold OrderModel.orderUpdateRow
  split <;> rfl

/-- Auxiliary: the order status update never changes the version of a row. -/
theorem orderUpdateRow_version (o : Order) (r : OrderRow) :
    (OrderModel.orderUpdateRow o r).version = r.version := by
  unfold OrderModel.orderUpdateRow
  split <;> rfl

/-- Auxiliary: the guarded decrement never changes the id of a row. -/
theorem decrementRow_id (q pid ver : Int) (p : ProductRow) :
    (decrementRow q pid ver p).id = p.id := by
  unfold decrementRow
  split <;> rfl

/-- Auxiliary: the guarded decrement never changes the price of a row. -/
theorem decrementRow_price (q pid ver : Int) (p : ProductRow) :
    (decrementRow q pid ver p).price = p.price := by
  unfold decrementRow
  split <;> rfl

/-- Auxiliary: a successful product select is the first row carrying the
id. -/
theorem selectProduct_ok (ps : List ProductRow) (pid : Int) (p : ProductRow)
    (h : selectProduct ps pid = .ok p) :
    ps.find? (fun r => r.id == pid) = some p := by
  unfold selectProduct at h
  cases hf : ps.find? (fun r => r.id == pid) with
  | none => rw [hf] at h; cases h
  | some r => rw [hf] at h; injection h with h; rw [h]

/-- Auxiliary: the guarded decrement leaves every stored price in
place. -/
theorem priceOf_decrementMatching (ps : List ProductRow) (q pid ver pid2 : Int) :
    priceOf (decrementMatching ps q pid ver) pid2 = priceOf ps pid2 := by
  unfold priceOf decrementMatching
  rw [find?_map_comm (decrementRow q pid ver) (fun x => x.id == pid2)
    (fun x => by simp [decrementRow_id]) ps]
  cases ps.find? (fun x => x.id == pid2) with
  | none => rfl
  | some r => simp [decrementRow_price]

/-- Auxiliary: totals computed with the same stored prices agree. -/
theorem specTotal_congr (ps1 ps2 : List ProductRow) (items : List OrderItem)
    (h : ∀ pid, priceOf ps1 pid = priceOf ps2 pid) :
    specTotal ps1 items = specTotal ps2 items := by
  unfold specTotal
  exact congrArg List.sum (List.map_congr_left (fun it _ => by rw [h]))

/-- Auxiliary: a successful guarded decrement produces exactly the row
transformation of the update statement. -/
theorem guardedDecrement_ok_eq (ps ps2 : List ProductRow) (q pid ver v2 : Int)
    (h : guardedDecrement ps q pid ver = .ok (ps2, v2)) :
    ps2 = decrementMatching ps q pid ver := by
  unfold guardedDecrement at h
  split at h
  · cases h
  · split at h
    · cases h
    · injection h with h
      injection h with ha hb
      exact ha.symm

/-- Auxiliary: a successful guarded decrement rejects no matched row, so
every matched row had enough stock. -/
theorem guardedDecrement_ok_stock (ps ps2 : List ProductRow) (q pid ver v2 : Int)
    (h : guardedDecrement ps q pid ver = .ok (ps2, v2)) :
    ∀ p ∈ ps, (p.id == pid && p.version == ver) = true → 0 ≤ p.quantity - q := by
  intro p hp hcond
  unfold guardedDecrement at h
  split at h
  · cases h
  · split at h
    · cases h
    · rename_i hany
      rw [List.any_eq_true] at hany
      push_neg at hany
      have hq := hany p (List.mem_filter.mpr ⟨hp, hcond⟩)
      simpa using hq

/-- Auxiliary: the committed decrement of one loop iteration. -/
theorem attemptDecrement_ok_eq (ps ps2 : List ProductRow) (q pid ver v2 : Int)
    (h : attemptDecrement ps q pid ver = (ps2, .ok v2)) :
    ps2 = decrementMatching ps q pid ver ∧
    guardedDecrement ps q pid ver = .ok (ps2, v2) := by
  unfold attemptDecrement at h
  cases hg : guardedDecrement ps q pid ver with
  | error e => rw [hg] at h; simp at h
  | ok pr =>
    obtain ⟨psx, vx⟩ := pr
    rw [hg] at h
    injection h with h1 h2
    injection h2 with h2
    subst h1; subst h2
    exact ⟨guardedDecrement_ok_eq ps psx q pid ver vx hg, rfl⟩

/-- Auxiliary: a failing loop iteration commits nothing. -/
theorem attemptDecrement_err_eq (ps ps2 : List ProductRow) (q pid ver : Int)
    (e : DataErr) (h : attemptDecrement ps q pid ver = (ps2, .error e)) :
    ps2 = ps := by
  unfold attemptDecrement at h
  cases hg : guardedDecrement ps q pid ver with
  | error e2 => rw [hg] at h; injection h with h1 h2; exact h1.symm
  | ok pr =>
    obtain ⟨psx, vx⟩ := pr
    rw [hg] at h
    simp at h

/-- Auxiliary: a reservation loop that succeeds returns the running
total plus, for each item, the stored unit price at that point plus the
bare quantity — and stored prices never move, so the prices are the ones
stored when the loop began. -/
theorem reserveLoop_ok_total (items : List OrderItem) :
    ∀ (ps ps2 : List ProductRow) (acc total : ℚ),
      reserveLoop ps acc items = (ps2, .ok total) →
      total = acc + specTotal ps items := by
  induction items with
  | nil =>
    intro ps ps2 acc total h
    unfold reserveLoop at h
    injection h with h1 h2
    injection h2 with h2
    simp [specTotal, ← h2]
  | cons it rest ih =>
    intro ps ps2 acc total h
    unfold reserveLoop at h
    split at h
    · simp at h
    · split at h
      · simp at h
      · rename_i product hsel
        split at h
        · simp at h
        · rename_i psx v hdec
          have htot := ih psx ps2 _ total h
          obtain ⟨hps, -⟩ :=
            attemptDecrement_ok_eq ps psx it.quantity product.id product.version v hdec
          have hpr : priceOf ps it.productId = product.price := by
            unfold priceOf
            rw [selectProduct_ok ps it.productId product hsel]
            rfl
          have hspec : specTotal psx rest = specTotal ps rest := by
            subst hps
            exact specTotal_congr _ _ rest
              (fun pid2 => priceOf_decrementMatching ps it.quantity product.id product.version pid2)
          rw [htot, hspec]
          simp [specTotal, hpr]
          ring

/-- Auxiliary: inserting order items touches no product row. -/
theorem insertOrderItems_products (items : List OrderItem) :
    ∀ (db : DB) (oid : Int), (insertOrderItems db oid items).products = db.products := by
  induction items with
  | nil => intro db oid; rfl
  | cons it rest ih =>
    intro db oid
    unfold insertOrderItems
    exact ih _ _

/-- Auxiliary: the product table a placement leaves behind is exactly
what its reservation loop committed, whether or not the placement
succeeded. -/
theorem Insert_products (uid : Int) (o : Order) (db : DB) :
    (OrderModel.Insert uid o db).1.products = (reserveLoop db.products 0 o.orderItems).1 := by
  unfold OrderModel.Insert
  cases hrl : reserveLoop db.products 0 o.orderItems with
  | mk ps res =>
    cases res with
    | error e => rfl
    | ok total => simp [insertOrderItems_products, insertOrderHeader]

/-- Auxiliary: the result of a placement is the error of its reservation
loop, or the created order carrying the accumulated total. -/
theorem Insert_result (uid : Int) (o : Order) (db : DB) :
    (OrderModel.Insert uid o db).2 =
      match (reserveLoop db.products 0 o.orderItems).2 with
      | .error e => .error e
      | .ok total =>
        .ok { o with id := db.nextOrderId, orderedAt := db.clock,
                     userId := uid, totalPrice := total } := by
  unfold OrderModel.Insert
  cases hrl : reserveLoop db.products 0 o.orderItems with
  | mk ps res =>
    cases res with
    | error e => rfl
    | ok total => rfl

/-- Auxiliary: when every matched row has enough stock, the committed
decrement keeps every quantity non-negative. -/
theorem decrementMatching_nonneg (ps : List ProductRow) (q pid ver : Int)
    (hok : ∀ p ∈ ps, (p.id == pid && p.version == ver) = true → 0 ≤ p.quantity - q)
    (hnn : ∀ p ∈ ps, 0 ≤ p.quantity) :
    ∀ p ∈ decrementMatching ps q pid ver, 0 ≤ p.quantity := by
  intro p2 hp2
  unfold decrementMatching at hp2
  rw [List.mem_map] at hp2
  obtain ⟨p, hp, rfl⟩ := hp2
  unfold decrementRow
  by_cases hc : (p.id == pid && p.version == ver) = true
  · rw [if_pos hc]
    exact hok p hp hc
  · rw [if_neg hc]
    exact hnn p hp

/-- Auxiliary: the guarded decrement leaves the stored quantity of every
other product in place. -/
theorem quantityOf_decrementMatching_other (ps : List ProductRow) (q pid ver pid2 : Int)
    (hne : pid2 ≠ pid) :
    quantityOf (decrementMatching ps q pid ver) pid2 = quantityOf ps pid2 := by
  unfold quantityOf decrementMatching
  rw [find?_map_comm (decrementRow q pid ver) (fun x => x.id == pid2)
    (fun x => by simp [decrementRow_id]) ps]
  cases hf : ps.find? (fun x => x.id == pid2) with
  | none => rfl
  | some r =>
    have hid : r.id = pid2 := by simpa using List.find?_some hf
    have hc : (r.id == pid && r.version == ver) = false := by
      simp [hid, hne]
    simp [decrementRow, hc]

/-- Auxiliary: the guarded decrement at the version just read lowers the
stored quantity of the targeted product by exactly the requested
amount. -/
theorem quantityOf_decrementMatching_self (ps : List ProductRow) (q pid : Int)
    (p : ProductRow) (hf : ps.find? (fun x => x.id == pid) = some p) :
    quantityOf (decrementMatching ps q pid p.version) pid = p.quantity - q := by
  unfold quantityOf decrementMatching
  rw [find?_map_comm (decrementRow q pid p.version) (fun x => x.id == pid)
    (fun x => by simp [decrementRow_id]) ps, hf]
  have hid : p.id = pid := by simpa using List.find?_some hf
  simp [decrementRow, hid]

/-- Auxiliary: a non-negative table reads a non-negative quantity for
every product id. -/
theorem quantityOf_nonneg (ps : List ProductRow)
    (hnn : ∀ p ∈ ps, 0 ≤ p.quantity) (pid : Int) : 0 ≤ quantityOf ps pid := by
  unfold quantityOf
  cases hf : ps.find? (fun x => x.id == pid) with
  | none => simp
  | some r =>
    have hr := List.mem_of_find?_eq_some hf
    simpa using hnn r hr

/-- Auxiliary: reservation sums distribute over the head item. -/
theorem reservedSum_cons (it : OrderItem) (rest : List OrderItem) (pid : Int) :
    reservedSum (it :: rest) pid =
      (if it.productId == pid then it.quantity else 0) + reservedSum rest pid := by
  unfold reservedSum
  by_cases h : (it.productId == pid) = true
  · simp [List.filter_cons, h]
  · simp [List.filter_cons, h]

/-- Auxiliary: the reservation loop keeps every stored quantity
non-negative (the database constraint rejects any decrement that would
go below zero). -/
theorem reserveLoop_nonneg (items : List OrderItem) :
    ∀ (ps : List ProductRow) (acc : ℚ),
      (∀ p ∈ ps, 0 ≤ p.quantity) →
      ∀ p ∈ (reserveLoop ps acc items).1, 0 ≤ p.quantity := by
  induction items with
  | nil => intro ps acc hnn; exact hnn
  | cons it rest ih =>
    intro ps acc hnn
    unfold reserveLoop
    split
    · exact hnn
    · split
      · exact hnn
      · rename_i product hsel
        split
        · rename_i psx e hdec
          have hps := attemptDecrement_err_eq ps psx it.quantity product.id product.version e hdec
          subst hps
          exact hnn
        · rename_i psx v hdec
          obtain ⟨hps, hg⟩ :=
            attemptDecrement_ok_eq ps psx it.quantity product.id product.version v hdec
          have hstock :=
            guardedDecrement_ok_stock ps psx it.quantity product.id product.version v hg
          subst hps
          exact ih _ _
            (decrementMatching_nonneg ps it.quantity product.id product.version hstock hnn)

/-- Auxiliary: a successful reservation loop lowers each stored quantity
by exactly the total quantity the items request for that product. -/
theorem reserveLoop_ok_quantity (items : List OrderItem) :
    ∀ (ps ps2 : List ProductRow) (acc total : ℚ) (pid : Int),
      reserveLoop ps acc items = (ps2, .ok total) →
      quantityOf ps2 pid = quantityOf ps pid - reservedSum items pid := by
  induction items with
  | nil =>
    intro ps ps2 acc total pid h
    unfold reserveLoop at h
    injection h with h1 h2
    subst h1
    simp [reservedSum]
  | cons it rest ih =>
    intro ps ps2 acc total pid h
    unfold reserveLoop at h
    split at h
    · simp at h
    · split at h
      · simp at h
      · rename_i product hsel
        split at h
        · simp at h
        · rename_i psx v hdec
          have hrest := ih psx ps2 _ total pid h
          obtain ⟨hps, -⟩ :=
            attemptDecrement_ok_eq ps psx it.quantity product.id product.version v hdec
          have hfind := selectProduct_ok ps it.productId product hsel
          have hpid : product.id = it.productId := by
            simpa using List.find?_some hfind
          by_cases hp : pid = it.productId
          · have hq1 : quantityOf psx pid = quantityOf ps pid - it.quantity := by
              rw [hps, hpid, hp]
              rw [quantityOf_decrementMatching_self ps it.quantity it.productId product hfind]
              have hqs : quantityOf ps it.productId = product.quantity := by
                unfold quantityOf
                rw [hfind]
                rfl
              rw [hqs]
            have hbe : (it.productId == pid) = true := by simp [hp]
            rw [hrest, hq1, reservedSum_cons, if_pos hbe]
            omega
          · have hq1 : quantityOf psx pid = quantityOf ps pid := by
              rw [hps, hpid]
              exact quantityOf_decrementMatching_other ps it.quantity it.productId product.version pid hp
            rw [hrest, hq1, reservedSum_cons]
            have hbe : (it.productId == pid) = false := by
              simp
              exact fun he => hp he.symm
            rw [hbe]
            simp

/-- Auxiliary: with non-negative item quantities, a failing reservation
loop never raises a stored quantity — its committed prefix of decrements
only lowers them. -/
theorem reserveLoop_err_quantity (items : List OrderItem) :
    ∀ (ps ps2 : List ProductRow) (acc : ℚ) (e : DataErr) (pid : Int),
      (∀ it ∈ items, 0 ≤ it.quantity) →
      reserveLoop ps acc items = (ps2, .error e) →
      quantityOf ps2 pid ≤ quantityOf ps pid := by
  induction items with
  | nil =>
    intro ps ps2 acc e pid hq h
    unfold reserveLoop at h
    simp at h
  | cons it rest ih =>
    intro ps ps2 acc e pid hq h
    unfold reserveLoop at h
    split at h
    · injection h with h1 h2
      subst h1
      exact le_refl _
    · split at h
      · injection h with h1 h2
        subst h1
        exact le_refl _
      · rename_i product hsel
        split at h
        · rename_i psx e2 hdec
          injection h with h1 h2
          have hps := attemptDecrement_err_eq ps psx it.quantity product.id product.version e2 hdec
          rw [← h1, hps]
        · rename_i psx v hdec
          have hrest := ih psx ps2 _ e pid
            (fun it2 hit2 => hq it2 (List.mem_cons_of_mem _ hit2)) h
          obtain ⟨hps, -⟩ :=
            attemptDecrement_ok_eq ps psx it.quantity product.id product.version v hdec
          have hfind := selectProduct_ok ps it.productId product hsel
          have hpid : product.id = it.productId := by
            simpa using List.find?_some hfind
          have hq0 : 0 ≤ it.quantity := hq it (List.mem_cons_self _ _)
          have hstep : quantityOf psx pid ≤ quantityOf ps pid := by
            by_cases hp : pid = it.productId
            · rw [hps, hpid, hp]
              rw [quantityOf_decrementMatching_self ps it.quantity it.productId product hfind]
              have hqs : quantityOf ps it.productId = product.quantity := by
                unfold quantityOf
                rw [hfind]
                rfl
              rw [hqs]
              omega
            · rw [hps, hpid,
                quantityOf_decrementMatching_other ps it.quantity it.productId product.version pid hp]
          exact le_trans hrest hstep

/-- Auxiliary: a placement keeps every stored quantity non-negative. -/
theorem Insert_nonneg (uid : Int) (o : Order) (db : DB)
    (hnn : ∀ p ∈ db.products, 0 ≤ p.quantity) :
    ∀ p ∈ (OrderModel.Insert uid o db).1.products, 0 ≤ p.quantity := by
  rw [Insert_products]
  exact reserveLoop_nonneg o.orderItems db.products 0 hnn

/-- Auxiliary: a successful placement lowers each stored quantity by
exactly its reservation for that product, and a failed placement with
non-negative item quantities never raises one. -/
theorem Insert_quantity_cases (uid : Int) (o : Order) (db : DB) (pid : Int)
    (hq : ∀ it ∈ o.orderItems, 0 ≤ it.quantity) :
    (isOkB (OrderModel.Insert uid o db).2 = true ∧
      quantityOf (OrderModel.Insert uid o db).1.products pid =
        quantityOf db.products pid - reservedSum o.orderItems pid) ∨
    (isOkB (OrderModel.Insert uid o db).2 = false ∧
      quantityOf (OrderModel.Insert uid o db).1.products pid ≤
        quantityOf db.products pid) := by
  have hres := Insert_result uid o db
  have hprod := Insert_products uid o db
  cases hrl : reserveLoop db.products 0 o.orderItems with
  | mk ps res =>
    rw [hrl] at hres hprod
    cases res with
    | ok total =>
      left
      constructor
      · rw [hres]; rfl
      · rw [hprod]
        exact reserveLoop_ok_quantity o.orderItems db.products ps 0 total pid hrl
    | error e =>
      right
      constructor
      · rw [hres]; rfl
      · rw [hprod]
        exact reserveLoop_err_quantity o.orderItems db.products ps 0 e pid hq hrl

/-- Auxiliary: one step of a placement sequence. -/
theorem runPlacements_cons (db : DB) (uid : Int) (o : Order)
    (rest : List (Int × Order)) :
    runPlacements db ((uid, o) :: rest) =
      ((runPlacements (OrderModel.Insert uid o db).1 rest).1,
        (OrderModel.Insert uid o db).2 ::
          (runPlacements (OrderModel.Insert uid o db).1 rest).2) := rfl

/-- Auxiliary: one step of the reserved-by-success sum. -/
theorem successReserved_cons (pid uid : Int) (o : Order) (cs : List (Int × Order))
    (r : Except DataErr Order) (rs : List (Except DataErr Order)) :
    successReserved pid ((uid, o) :: cs) (r :: rs) =
      (if isOkB r then reservedSum o.orderItems pid else 0) +
        successReserved pid cs rs := rfl

/-- C1 counterexample: against product 1 with initial quantity Q = 5, the
sequence [orderA, orderB] — where orderA fails midway after committing a
decrement by -10 (item quantities are never validated) and orderB then
succeeds reserving 12 — ends with the successful placements having
reserved 12 > 5 = Q, while the stored quantity (3) indeed never went
negative: the two formulations of the claim are not equivalent and the
sum bound fails as stated. -/
theorem C1_counterexample :
    quantityOf sampleDB.products 1 = 5 ∧
    (runPlacements sampleDB [(4, orderA), (4, orderB)]).2.map isOkB = [false, true] ∧
    successReserved 1 [(4, orderA), (4, orderB)]
      (runPlacements sampleDB [(4, orderA), (4, orderB)]).2 = 12 ∧
    ¬ successReserved 1 [(4, orderA), (4, orderB)]
        (runPlacements sampleDB [(4, orderA), (4, orderB)]).2 ≤ 5 ∧
    quantityOf (runPlacements sampleDB [(4, orderA), (4, orderB)]).1.products 1 = 3 := by
  decide

/-- C1 amended: over any sequence of placements against a store whose
quantities start non-negative, every stored quantity stays non-negative
unconditionally — whatever the item quantities, the modelled
`quantity_check` constraint rejects any decrement below zero; and under
the additional hypothesis that every item quantity in the sequence is
non-negative, the total quantity reserved by the placements that return
success never exceeds the initial stored quantity of the product. -/
theorem C1_stock_amended (calls : List (Int × Order)) :
    ∀ (db : DB) (pid : Int),
      (∀ p ∈ db.products, 0 ≤ p.quantity) →
      (∀ p ∈ (runPlacements db calls).1.products, 0 ≤ p.quantity) ∧
      ((∀ c ∈ calls, ∀ it ∈ c.2.orderItems, 0 ≤ it.quantity) →
        successReserved pid calls (runPlacements db calls).2 ≤
          quantityOf db.products pid) := by
  induction calls with
  | nil =>
    intro db pid hnn
    exact ⟨hnn, fun _ => quantityOf_nonneg db.products hnn pid⟩
  | cons c rest ih =>
    intro db pid hnn
    obtain ⟨uid, o⟩ := c
    have hnn1 : ∀ p ∈ (OrderModel.Insert uid o db).1.products, 0 ≤ p.quantity :=
      Insert_nonneg uid o db hnn
    obtain ⟨ihn, ihs⟩ := ih (OrderModel.Insert uid o db).1 pid hnn1
    rw [runPlacements_cons]
    refine ⟨ihn, ?_⟩
    intro hq
    have hq0 : ∀ it ∈ o.orderItems, 0 ≤ it.quantity :=
      hq (uid, o) (List.mem_cons_self _ _)
    have hqrest : ∀ c2 ∈ rest, ∀ it ∈ c2.2.orderItems, 0 ≤ it.quantity :=
      fun c2 hc2 => hq c2 (List.mem_cons_of_mem _ hc2)
    have ihs2 := ihs hqrest
    rw [successReserved_cons]
    rcases Insert_quantity_cases uid o db pid hq0 with ⟨hok, heq⟩ | ⟨herr, hle⟩
    · rw [if_pos hok]
      rw [heq] at ihs2
      omega
    · rw [herr]
      simp only [Bool.false_eq_true, if_false]
      have hfin := le_trans ihs2 hle
      omega

/-- C1 amended, witnessed: one successful placement of three units of
product 1 against initial stock 5 keeps every quantity non-negative and
reserves at most 5; and the non-negativity conclusion also holds for the
sequence [orderA, orderB] whose first placement carries the negative
item quantity -10 — the unconditional part needs no hypothesis on item
quantities. -/
theorem C1_stock_amended_witness :
    ((∀ p ∈ (runPlacements sampleDB [(7, orderOk)]).1.products, 0 ≤ p.quantity) ∧
     successReserved 1 [(7, orderOk)] (runPlacements sampleDB [(7, orderOk)]).2 ≤
       quantityOf sampleDB.products 1) ∧
    (∀ p ∈ (runPlacements sampleDB [(4, orderA), (4, orderB)]).1.products,
      0 ≤ p.quantity) :=
  ⟨⟨(C1_stock_amended [(7, orderOk)] sampleDB 1 (by decide)).1,
    (C1_stock_amended [(7, orderOk)] sampleDB 1 (by decide)).2 (by decide)⟩,
   (C1_stock_amended [(4, orderA), (4, orderB)] sampleDB 1 (by decide)).1⟩

/-- C2: the failing input — a placement for three units of the stocked
product 1 followed by one unit of the missing product 2 — returns an
error, yet the state it leaves behind keeps the committed decrement on
product 1 (quantity 5 to 2, version 1 to 2) and holds no order row:
nothing is rolled back. -/
theorem C2_no_rollback :
    OrderModel.Insert 7 orderC2 sampleDB =
      ({ sampleDB with products := [{ sampleProduct1 with quantity := 2, version := 2 }] },
        .error .recordNotFound) ∧
    quantityOf sampleDB.products 1 = 5 ∧
    quantityOf (OrderModel.Insert 7 orderC2 sampleDB).1.products 1 = 2 ∧
    (OrderModel.Insert 7 orderC2 sampleDB).1.orders = [] := by
  decide

/-- C3 counterexample: product 1 sits at version 2 after a concurrent
writer, the placement presents the stale version 1 it read earlier, and
stock is ample — the guarded decrement affects zero rows and the code
returns `ErrRecordNotFound`, not the `EditConflict` the claim names. -/
theorem C3_counterexample :
    attemptDecrement [staleProduct] 1 1 1 = ([staleProduct], .error .recordNotFound) ∧
    DataErr.recordNotFound ≠ DataErr.editConflict := by
  decide

/-- C4: the failing input — user 5 submits a review for product 7 against
a store where only user 3 ever ordered anything (order 1 containing
product 9).  The gate query compares against its hard-coded literals
`user_id = 3` and `product_id = 9`, so it answers true and the review is
created, although by the spec predicate user 5 never ordered product 7
and the submission should have been rejected with the not-permitted
kind. -/
theorem C4_gate_ignores_arguments :
    OrderModel.IsUserOrderedProduct gateDB 5 7 = .ok true ∧
    userHasOrderedSpec gateDB 5 7 = false ∧
    (createReviewHandler gateDB 5 7 4 "nice").2 = .created ∧
    (createReviewHandler gateDB 5 7 4 "nice").2 ≠ .notPermitted := by
  decide

/-- C5 counterexample: `OrderModel.Update` with the matching version 3
succeeds, yet both the scanned version it returns and the stored row keep
version 3 instead of 4 — a successful update that does not increment the
version. -/
theorem C5_counterexample :
    (OrderModel.Update updOrder ordersDB).2 = .ok updOrder ∧
    updOrder.version = 3 ∧
    orderVersionOf (OrderModel.Update updOrder ordersDB).1.orders 1 = 3 ∧
    orderStatusOf (OrderModel.Update updOrder ordersDB).1.orders 1 = 2 ∧
    ¬ orderVersionOf (OrderModel.Update updOrder ordersDB).1.orders 1 = 3 + 1 := by
  decide

/-- C3 amended: the two failure causes of the guarded decrement are
distinguished, but the zero-rows case (the stored version changed since it
was read) is mapped to `ErrRecordNotFound`, not `EditConflict`: no row
matches the presented (id, version) pair exactly when the store signals
no rows, and that surfaces as `recordNotFound`, while a matched row
rejected by the quantity constraint surfaces as `outOfStock`; the two
kinds are distinct. -/
theorem C3_amended (ps : List ProductRow) (q pid ver : Int) :
    (ps.filter (fun p => p.id == pid && p.version == ver) = [] →
      attemptDecrement ps q pid ver = (ps, .error .recordNotFound)) ∧
    (∀ r ∈ ps.filter (fun p => p.id == pid && p.version == ver),
      r.quantity - q < 0 →
      attemptDecrement ps q pid ver = (ps, .error .outOfStock)) ∧
    DataErr.recordNotFound ≠ DataErr.outOfStock := by
  refine ⟨?_, ?_, by decide⟩
  · intro hempty
    simp [attemptDecrement, guardedDecrement, hempty, mapDecrementErr]
  · intro r hr hviol
    have hfe : ¬ ((ps.filter (fun p => p.id == pid && p.version == ver)).isEmpty = true) := by
      rw [List.isEmpty_iff]
      exact List.ne_nil_of_mem hr
    have hany : ((ps.filter (fun p => p.id == pid && p.version == ver)).any
        (fun p => p.quantity - q < 0)) = true :=
      List.any_eq_true.mpr ⟨r, hr, decide_eq_true hviol⟩
    simp only [attemptDecrement, guardedDecrement]
    rw [if_neg hfe, if_pos hany]
    rfl

/-- C3 amended, witnessed at concrete inputs: the stale-version case on a
store holding product 1 at version 2 yields `recordNotFound`, and an
oversized decrement against the matching version yields `outOfStock`. -/
theorem C3_amended_witness :
    attemptDecrement [staleProduct] 1 1 1 = ([staleProduct], .error .recordNotFound) ∧
    attemptDecrement [sampleProduct1] 9 1 1 = ([sampleProduct1], .error .outOfStock) :=
  ⟨(C3_amended [staleProduct] 1 1 1).1 (by decide),
   (C3_amended [sampleProduct1] 9 1 1).2.1 sampleProduct1 (by decide) (by decide)⟩

/-- C5 amended: `ProductModel.Update` is guarded by (id, version),
increments both the stored and the returned version by exactly 1 on
success, and yields `EditConflict` when no row carries the presented
version; `OrderModel.Update` is likewise guarded and yields
`EditConflict` on a stale version, but a successful update leaves every
stored version (and the returned one) unchanged instead of incrementing;
`CategoryModel.Update` is conditioned on the primary key alone —
categories carry no version, so any concurrent category update is a
silent overwrite. -/
theorem C5_versioning :
    (∀ (db : DB) (p : Product) (db2 : DB) (p2 : Product),
        (db.products.map (fun r => r.id)).Nodup →
        ProductModel.Update p db = (db2, .ok p2) →
        p2.version = p.version + 1 ∧
        versionOf db.products p.id = p.version ∧
        versionOf db2.products p.id = p.version + 1) ∧
    (∀ (db : DB) (p : Product),
        db.products.filter (fun r => r.id == p.id && r.version == p.version) = [] →
        ProductModel.Update p db = (db, .error .editConflict)) ∧
    (∀ (db : DB) (o : Order) (db2 : DB) (o2 : Order),
        OrderModel.Update o db = (db2, .ok o2) →
        o2.version = o.version ∧
        db2.orders.map (fun r => r.version) = db.orders.map (fun r => r.version)) ∧
    (∀ (db : DB) (o : Order),
        db.orders.filter (fun r => r.id == o.id && r.version == o.version) = [] →
        OrderModel.Update o db = (db, .error .editConflict)) ∧
    (∀ (db : DB) (c : CategoryRow),
        db.categories.filter (fun r => r.id == c.id) ≠ [] →
        (CategoryModel.Update c db).2 = .ok c) := by
  refine ⟨?_, ?_, ?_, ?_, ?_⟩
  · intro db p db2 p2 hnd h
    unfold ProductModel.Update at h
    by_cases hfe : (db.products.filter
        (fun r => r.id == p.id && r.version == p.version)).isEmpty = true
    · rw [if_pos hfe] at h
      simp at h
    · rw [if_neg hfe] at h
      injection h with h1 h2
      injection h2 with h2
      have hne : db.products.filter
          (fun r => r.id == p.id && r.version == p.version) ≠ [] :=
        fun he => hfe (List.isEmpty_iff.mpr he)
      obtain ⟨r, hrmem⟩ := List.exists_mem_of_ne_nil _ hne
      obtain ⟨hrdb, hcond⟩ := List.mem_filter.mp hrmem
      have hcond2 := hcond
      rw [Bool.and_eq_true, beq_iff_eq, beq_iff_eq] at hcond2
      obtain ⟨hrid, hrver⟩ := hcond2
      have hfind : db.products.find? (fun x => x.id == p.id) = some r :=
        find?_eq_of_mem_nodup (fun x => x.id) db.products hnd r hrdb p.id hrid
      refine ⟨by rw [← h2], ?_, ?_⟩
      · unfold versionOf
        rw [hfind]
        simp [hrver]
      · subst h1
        unfold versionOf
        have hcomm := find?_map_comm (ProductModel.productUpdateRow p)
          (fun x => x.id == p.id)
          (fun x => by simp [productUpdateRow_id]) db.products
        rw [hcomm, hfind]
        simp [ProductModel.productUpdateRow, hcond, hrid, hrver]
  · intro db p hemp
    unfold ProductModel.Update
    rw [if_pos (by rw [hemp]; rfl)]
  · intro db o db2 o2 h
    unfold OrderModel.Update at h
    by_cases hfe : (db.orders.filter
        (fun r => r.id == o.id && r.version == o.version)).isEmpty = true
    · rw [if_pos hfe] at h
      simp at h
    · rw [if_neg hfe] at h
      injection h with h1 h2
      injection h2 with h2
      refine ⟨by rw [← h2], ?_⟩
      subst h1
      show (db.orders.map (OrderModel.orderUpdateRow o)).map (fun r => r.version) = _
      rw [List.map_map]
      exact List.map_congr_left (fun r _ => orderUpdateRow_version o r)
  · intro db o hemp
    unfold OrderModel.Update
    rw [if_pos (by rw [hemp]; rfl)]
  · intro db c hne
    unfold CategoryModel.Update
    rw [if_neg (fun hT => hne (List.isEmpty_iff.mp hT))]

/-- C5 amended, witnessed: the product update against `sampleDB` succeeds
and moves the stored version from 1 to 2; the same update presented with
version 5 yields `EditConflict`; the order status update on `ordersDB`
succeeds leaving the stored versions unchanged; the same order update
presented with version 9 yields `EditConflict`; and the category update
succeeds with no version check at all. -/
theorem C5_versioning_witness :
    (({ prod1 with version := 2 } : Product).version = prod1.version + 1 ∧
     versionOf sampleDB.products prod1.id = prod1.version ∧
     versionOf prod1updDB.products prod1.id = prod1.version + 1) ∧
    ProductModel.Update { prod1 with version := 5 } sampleDB =
      (sampleDB, .error .editConflict) ∧
    (updOrder.version = updOrder.version ∧
     ordersDB2.orders.map (fun r => r.version) =
       ordersDB.orders.map (fun r => r.version)) ∧
    OrderModel.Update { updOrder with version := 9 } ordersDB =
      (ordersDB, .error .editConflict) ∧
    (CategoryModel.Update cat1upd catDB).2 = .ok cat1upd :=
  ⟨C5_versioning.1 sampleDB prod1 prod1updDB { prod1 with version := 2 }
      (by decide) (by decide),
   C5_versioning.2.1 sampleDB { prod1 with version := 5 } (by decide),
   C5_versioning.2.2.1 ordersDB updOrder ordersDB2 updOrder (by decide),
   C5_versioning.2.2.2.1 ordersDB { updOrder with version := 9 } (by decide),
   C5_versioning.2.2.2.2 catDB cat1upd (by decide)⟩

/-- C6: every successful placement stores as the total price of the
order the sum over its items of the stored unit price of the product at
reservation time plus the bare item quantity — price plus quantity, not price times
quantity. -/
theorem C6_total_price (uid : Int) (o : Order) (db db2 : DB) (o2 : Order)
    (h : OrderModel.Insert uid o db = (db2, .ok o2)) :
    o2.totalPrice = specTotal db.products o.orderItems := by
  have hres := Insert_result uid o db
  rw [h] at hres
  cases hrl : (reserveLoop db.products 0 o.orderItems) with
  | mk ps res =>
    rw [hrl] at hres
    cases res with
    | error e => simp at hres
    | ok total =>
      simp only [] at hres
      injection hres with hres
      rw [hres]
      have := reserveLoop_ok_total o.orderItems db.products ps 0 total hrl
      simpa using this

/-- C6, witnessed: placing `orderOk` (three units of product 1, price 10)
against `sampleDB` succeeds with stored total 10 + 3 = 13, which equals
the specified accumulation. -/
theorem C6_total_price_witness :
    ({ orderOk with id := 1, orderedAt := 0, userId := 7, totalPrice := 13 } : Order).totalPrice =
      specTotal sampleDB.products orderOk.orderItems :=
  C6_total_price 7 orderOk sampleDB
    (OrderModel.Insert 7 orderOk sampleDB).1
    { orderOk with id := 1, orderedAt := 0, userId := 7, totalPrice := 13 }
    (by
      refine Prod.ext rfl ?_
      rw [Insert_result]
      norm_num [reserveLoop, selectProduct, sampleDB, sampleProduct1, orderOk,
        attemptDecrement, guardedDecrement, decrementMatching, decrementRow])

/-- C7 counterexample: an order whose single item has quantity -2 passes
`ValidateOrder` (item quantities are never checked), and the placement
then succeeds and raises the stock of product 1 from 5 to 7 — neither
rejected nor stock-preserving. -/
theorem C7_counterexample :
    (ValidateOrder Validator.new negOrder).valid = true ∧
    isOkB (OrderModel.Insert 1 negOrder sampleDB).2 = true ∧
    quantityOf sampleDB.products 1 = 5 ∧
    quantityOf (OrderModel.Insert 1 negOrder sampleDB).1.products 1 = 7 := by
  decide

/-- C7 amended: `ValidateOrder` checks only the address, the user id and
the presence of at least one item — an order meeting those three rules
passes validation whatever its item quantities, so a quantity of zero or
less is never rejected. -/
theorem C7_amended (o : Order) (h1 : o.address ≠ "") (h2 : 0 ≤ o.userId)
    (h3 : o.orderItems ≠ []) :
    (ValidateOrder Validator.new o).valid = true := by
  have b1 : (o.address != "") = true := by simpa using h1
  have b2 : decide (0 ≤ o.userId) = true := decide_eq_true h2
  have b3 : o.orderItems.isEmpty = false := by
    simpa [List.isEmpty_iff] using h3
  have b4 : decide (1 ≤ o.orderItems.length) = true :=
    decide_eq_true (List.length_pos.mpr h3)
  simp [ValidateOrder, Validator.check, b1, b2, b3, b4, Validator.new, Validator.valid]

/-- C7 amended, witnessed at the concrete order whose single item has
quantity -2. -/
theorem C7_amended_witness : (ValidateOrder Validator.new negOrder).valid = true :=
  C7_amended negOrder (by decide) (by decide) (by decide)

/-- C8: when the total record count is zero the reported metadata is all
zeros (in particular total records 0 and total pages 0) and no division
is performed; for a positive total and page size, the reported total
pages is the ceiling of total records over page size, so 23 records at
page size 20 report 2 pages. -/
theorem C8_pagination (page pageSize total : Nat) :
    calculateMetadata 0 page pageSize =
      { currentPage := 0, pageSize := 0, totalRecords := 0, totalPages := 0 } ∧
    (0 < total → 0 < pageSize →
      (calculateMetadata total page pageSize).totalRecords = total ∧
      (((calculateMetadata total page pageSize).totalPages : ℤ) : ℚ) =
        ⌈(total : ℚ) / (pageSize : ℚ)⌉) ∧
    (calculateMetadata 23 page 20).totalPages = 2 := by
  refine ⟨rfl, ?_, by simp [calculateMetadata]⟩
  intro ht hs
  have hne : total ≠ 0 := Nat.pos_iff_ne_zero.mp ht
  refine ⟨by simp [calculateMetadata, hne], ?_⟩
  have hdm := Nat.div_add_mod (total + pageSize - 1) pageSize
  have hmod : (total + pageSize - 1) % pageSize < pageSize := Nat.mod_lt _ hs
  have h1 : total ≤ pageSize * ((total + pageSize - 1) / pageSize) := by omega
  have h2 : pageSize * ((total + pageSize - 1) / pageSize) < total + pageSize := by omega
  have hsq : (0 : ℚ) < (pageSize : ℚ) := by exact_mod_cast hs
  have hmeta : (calculateMetadata total page pageSize).totalPages =
      (total + pageSize - 1) / pageSize := by
    simp [calculateMetadata, hne]
  have h1q : (total : ℚ) ≤
      (pageSize : ℚ) * (((total + pageSize - 1) / pageSize : ℕ) : ℚ) := by
    exact_mod_cast h1
  have h2q : (pageSize : ℚ) * (((total + pageSize - 1) / pageSize : ℕ) : ℚ) <
      (total : ℚ) + (pageSize : ℚ) := by exact_mod_cast h2
  have hceil : ⌈(total : ℚ) / (pageSize : ℚ)⌉ =
      (((total + pageSize - 1) / pageSize : ℕ) : ℤ) := by
    rw [Int.ceil_eq_iff]
    constructor
    · rw [Int.cast_natCast, lt_div_iff₀ hsq]
      have hr : ((((total + pageSize - 1) / pageSize : ℕ) : ℚ) - 1) * (pageSize : ℚ) =
          (pageSize : ℚ) * (((total + pageSize - 1) / pageSize : ℕ) : ℚ) - (pageSize : ℚ) := by
        ring
      rw [hr]
      linarith
    · rw [Int.cast_natCast, div_le_iff₀ hsq]
      have hr : (((total + pageSize - 1) / pageSize : ℕ) : ℚ) * (pageSize : ℚ) =
          (pageSize : ℚ) * (((total + pageSize - 1) / pageSize : ℕ) : ℚ) := by
        ring
      rw [hr]
      linarith
  rw [hmeta, hceil]

/-- C8, witnessed at total 23, page 1, page size 20, and at the zero
total. -/
theorem C8_pagination_witness :
    calculateMetadata 0 1 20 =
      { currentPage := 0, pageSize := 0, totalRecords := 0, totalPages := 0 } ∧
    (calculateMetadata 23 1 20).totalRecords = 23 ∧
    (((calculateMetadata 23 1 20).totalPages : ℤ) : ℚ) =
      ⌈(((23 : ℕ)) : ℚ) / (((20 : ℕ)) : ℚ)⌉ ∧
    (calculateMetadata 23 1 20).totalPages = 2 :=
  ⟨(C8_pagination 1 20 23).1,
   ((C8_pagination 1 20 23).2.1 (by decide) (by decide)).1,
   ((C8_pagination 1 20 23).2.1 (by decide) (by decide)).2,
   (C8_pagination 1 20 23).2.2⟩

/-- C9: a sort key outside the configured allow-list fails filter
validation inside `listProductsHandler`, which returns before the listing
query is ever issued. -/
theorem C9_sort_allowlist (title : String) (cats : List String)
    (page pageSize : Int) (sortKey : String)
    (h : sortKey ∉ productSortSafelist) :
    listProductsHandler title cats page pageSize sortKey = .validationFailed := by
  simp [listProductsHandler, ValidateFilters, Validator.check, Validator.addError,
        Validator.new, Validator.valid, h]

/-- C9, witnessed at the sort key "owner", which is not in the allow-list
of `listProductsHandler`. -/
theorem C9_sort_allowlist_witness :
    listProductsHandler "" [] 1 20 "owner" = .validationFailed :=
  C9_sort_allowlist "" [] 1 20 "owner" (by decide)

/-- C10: for a non-positive id, both delete model methods return the raw
`pgx.ErrNoRows` value rather than `ErrRecordNotFound`, so both delete
handlers classify the failure as an unclassified server error, whereas
`ProductModel.Get` returns `ErrRecordNotFound` and the show handler
classifies the same id as not-found. -/
theorem C10_raw_error_on_nonpositive_id (db : DB) (id : Int) (h : id < 1) :
    ProductModel.Delete db id = (db, .error (.store .pgxNoRows)) ∧
    OrderModel.Delete db id = (db, .error (.store .pgxNoRows)) ∧
    deleteProductHandler db id = (db, .serverError) ∧
    deleteOrderHandler db id = (db, .serverError) ∧
    ProductModel.Get db id = .error .recordNotFound ∧
    showProductHandler db id = .notFound ∧
    DataErr.store .pgxNoRows ≠ DataErr.recordNotFound := by
  refine ⟨?_, ?_, ?_, ?_, ?_, ?_, by decide⟩
  · simp [ProductModel.Delete, h]
  · simp [OrderModel.Delete, h]
  · simp [deleteProductHandler, ProductModel.Delete, h]
  · simp [deleteOrderHandler, OrderModel.Delete, h]
  · simp [ProductModel.Get, h]
  · simp [showProductHandler, ProductModel.Get, h]

/-- C10, witnessed at id 0 against the sample store. -/
theorem C10_raw_error_witness :
    ProductModel.Delete sampleDB 0 = (sampleDB, .error (.store .pgxNoRows)) ∧
    OrderModel.Delete sampleDB 0 = (sampleDB, .error (.store .pgxNoRows)) ∧
    deleteProductHandler sampleDB 0 = (sampleDB, .serverError) ∧
    deleteOrderHandler sampleDB 0 = (sampleDB, .serverError) ∧
    ProductModel.Get sampleDB 0 = .error .recordNotFound ∧
    showProductHandler sampleDB 0 = .notFound ∧
    DataErr.store .pgxNoRows ≠ DataErr.recordNotFound :=
  C10_raw_error_on_nonpositive_id sampleDB 0 (by decide)

end FinalProject

